import Mathlib

/-!
Verification development for the LicensePlateChecker service
(src/src/server.js). The definitions below are a shallow embedding of the
request-handling pipeline: the upstream-response interpreter
(interpretDmvResponse), the normalizer (normalizePlate), the fixed-window
rate limiter (isRateLimited), the TTL cache (getCachedResult /
setCachedResult), and the POST /api/check-plate route handler
(checkPlateHandler). JavaScript values that flow through the pipeline are
modelled by the inductive type JSValue; timestamps in milliseconds are Nat;
the JavaScript Map objects (plateCache, requestBuckets) are association
lists with the unique-key invariant that a real Map maintains.
-/

set_option autoImplicit false

namespace PlateChecker

/-- Model of the JavaScript values the server manipulates: the payload
parsed from the upstream body (JSON object, string, number, boolean, null)
plus the undefined value produced by a missing property. Objects are
association lists of named fields; JSON.parse yields unique keys. -/
inductive JSValue where
  | jsUndef
  | jsNull
  | jsBool (b : Bool)
  | jsNum (n : Int)
  | jsStr (s : String)
  | jsObj (fields : List (String × JSValue))

open JSValue

/-- Property lookup on an object field list: first binding wins (keys
produced by JSON.parse are unique, so this matches JavaScript). -/
def fieldLookup : List (String × JSValue) → String → JSValue
  | [], _ => jsUndef
  | (k, v) :: rest, name => if k = name then v else fieldLookup rest name

/-- JavaScript property access v[name]: undefined on every non-object
(property access on primitives yields undefined for these names; access on
null or undefined cannot occur on the paths modelled here because the code
branches on null and undefined first). -/
def member : JSValue → String → JSValue
  | jsObj fields, name => fieldLookup fields name
  | _, _ => jsUndef

/-- JavaScript truthiness (NaN is not representable here; numeric fields
are modelled as integers). -/
def truthy : JSValue → Bool
  | jsUndef => false
  | jsNull => false
  | jsBool b => b
  | jsNum n => n != 0
  | jsStr s => s != ""
  | jsObj _ => true

/-- JavaScript a || b: the first operand when truthy, else the second. -/
def jsOr (a b : JSValue) : JSValue :=
  if truthy a then a else b

/-- JavaScript String(v) conversion for the values modelled here (plain
JSON objects stringify to [object Object]). -/
def jsToString : JSValue → String
  | jsUndef => "undefined"
  | jsNull => "null"
  | jsBool true => "true"
  | jsBool false => "false"
  | jsNum n => toString n
  | jsStr s => s
  | jsObj _ => "[object Object]"

/-- The ECMAScript whitespace set trimmed by String.prototype.trim, by
code point: space, tab, line feed, carriage return, vertical tab, form
feed, no-break space, the Unicode space separators, the line and paragraph
separators, and the byte order mark. -/
def jsIsWhite (c : Char) : Bool :=
  c.toNat = 32 || c.toNat = 9 || c.toNat = 10 || c.toNat = 13 ||
  c.toNat = 11 || c.toNat = 12 || c.toNat = 0xa0 || c.toNat = 0x1680 ||
  (0x2000 ≤ c.toNat && c.toNat ≤ 0x200a) || c.toNat = 0x2028 ||
  c.toNat = 0x2029 || c.toNat = 0x202f || c.toNat = 0x205f ||
  c.toNat = 0x3000 || c.toNat = 0xfeff

/-- Drop trailing characters satisfying p. -/
def dropTrailing (p : Char → Bool) (l : List Char) : List Char :=
  (l.reverse.dropWhile p).reverse

/-- JavaScript String.prototype.trim. -/
def jsTrim (s : String) : String :=
  String.mk (dropTrailing jsIsWhite (s.toList.dropWhile jsIsWhite))

/-- JavaScript toLowerCase, restricted to ASCII case mapping; the strings
compared against in server.js are ASCII, and every character the validator
admits is ASCII, so the restriction is faithful on all relevant inputs. -/
def jsToLower (s : String) : String :=
  String.mk (s.toList.map Char.toLower)

/-- JavaScript toUpperCase, restricted to ASCII case mapping (see
jsToLower). -/
def jsToUpper (s : String) : String :=
  String.mk (s.toList.map Char.toUpper)

/-- Does the character list start with the given pattern. -/
def charsStartWith : List Char → List Char → Bool
  | _, [] => true
  | [], _ :: _ => false
  | c :: cs, p :: ps => c = p && charsStartWith cs ps

/-- Does the character list contain the pattern as a contiguous run. -/
def charsContain (hay pat : List Char) : Bool :=
  match hay with
  | [] => charsStartWith [] pat
  | _ :: t => charsStartWith hay pat || charsContain t pat

/-- JavaScript String.prototype.includes. -/
def jsIncludes (s pat : String) : Bool :=
  charsContain s.toList pat.toList

/-- JavaScript String.prototype.startsWith. -/
def jsStartsWith (s pat : String) : Bool :=
  charsStartWith s.toList pat.toList

/-- Generic lookup in an association-list model of a JavaScript Map. -/
def mapLookup {β : Type} : List (String × β) → String → Option β
  | [], _ => none
  | (k, v) :: rest, key => if k = key then some v else mapLookup rest key

/-- Map.set: replace the binding in place when the key is present,
otherwise append (matches Map insertion-order semantics). -/
def mapSet {β : Type} : List (String × β) → String → β → List (String × β)
  | [], key, val => [(key, val)]
  | (k, v) :: rest, key, val =>
    if k = key then (key, val) :: rest else (k, v) :: mapSet rest key val

/-- Map.delete: remove the binding for the key. -/
def mapDelete {β : Type} : List (String × β) → String → List (String × β)
  | [], _ => []
  | (k, v) :: rest, key => if k = key then rest else (k, v) :: mapDelete rest key

/-- Millisecond constants from server.js lines 10-12. -/
def CACHE_TTL_MS : Nat := 5 * 60 * 1000

def RATE_LIMIT_WINDOW_MS : Nat := 60 * 1000

def RATE_LIMIT_MAX_REQUESTS : Nat := 20

/-- An interpreted result object literal {status, message}. The message is
a JSValue because lines 167, 175 and 184 of server.js forward the upstream
message value, which need not be a string. -/
structure DmvResult where
  status : String
  message : JSValue

/-- Value returned by interpretDmvResponse. Alongside proper result
objects, the expression messageMap[normalizedMessage] on line 158 can
return a member inherited from Object.prototype: the object literal
messageMap has Object.prototype in its prototype chain, bracket lookup
walks that chain, and the lookup key normalizedMessage is lower-cased, so
the reachable inherited member names are exactly "constructor" (the Object
function) and "__proto__" (Object.prototype). Both are truthy and have no
status property; protoMember records such a value. -/
inductive InterpretOut where
  | result (r : DmvResult)
  | protoMember (name : String)

/-- The value of interpreted.status (undefined, modelled none, on an
inherited prototype member). -/
def statusOf : InterpretOut → Option String
  | .result r => some r.status
  | .protoMember _ => none

/-- The value of interpreted.message (undefined on an inherited prototype
member). -/
def messageOf : InterpretOut → JSValue
  | .result r => r.message
  | .protoMember _ => jsUndef

/-- Strict equality to true (v === true). -/
def isTrue : JSValue → Bool
  | jsBool true => true
  | _ => false

/-- Strict equality to false (v === false). -/
def isFalse : JSValue → Bool
  | jsBool false => true
  | _ => false

/-- The truthiness test and read of messageMap[normalizedMessage]
(server.js lines 150-159): the five own keys map to fixed results; the two
all-lowercase names inherited from Object.prototype produce a truthy
non-result value; everything else is undefined. -/
def messageMapLookup (nm : String) : Option InterpretOut :=
  if nm = "message.available" then
    some (.result ⟨"available", jsStr "That plate is available."⟩)
  else if nm = "message.notavailable" then
    some (.result ⟨"taken", jsStr "That plate appears to be taken."⟩)
  else if nm = "message.taken" then
    some (.result ⟨"taken", jsStr "That plate appears to be taken."⟩)
  else if nm = "message.invalid" then
    some (.result ⟨"invalid", jsStr "That plate is invalid."⟩)
  else if nm = "message.global" then
    some (.result ⟨"unavailable", jsStr "DMV returned a temporary error. Please try again."⟩)
  else if nm = "constructor" then some (.protoMember "constructor")
  else if nm = "__proto__" then some (.protoMember "__proto__")
  else none

/-- Line 147: String(payload.code || payload.status || payload.result ||
'').toUpperCase(). -/
def extractCode (payload : JSValue) : String :=
  jsToUpper (jsToString (jsOr (member payload "code")
    (jsOr (member payload "status") (jsOr (member payload "result") (jsStr "")))))

/-- Line 148: payload.message || payload.errorMessage ||
payload.statusMessage. -/
def extractMessage (payload : JSValue) : JSValue :=
  jsOr (member payload "message")
    (jsOr (member payload "errorMessage") (member payload "statusMessage"))

/-- Line 149: the lower-cased trimmed message used as the map key. -/
def normalizeMessage (message : JSValue) : String :=
  match message with
  | jsStr s => jsToLower (jsTrim s)
  | _ => ""

/-- interpretDmvResponse (server.js lines 127-192), translated branch by
branch in source order. -/
def interpretDmvResponse (payload : JSValue) (httpStatus : Int) : InterpretOut :=
  if httpStatus ≥ 500 then
    .result ⟨"unavailable", jsStr "DMV service is temporarily unavailable. Please try again shortly."⟩
  else
    match payload with
    | jsNull => .result ⟨"unavailable", jsStr "Unexpected response from DMV service."⟩
    | jsUndef => .result ⟨"unavailable", jsStr "Unexpected response from DMV service."⟩
    | jsStr s =>
      let text := jsToLower s
      if jsIncludes text "can be requested" || jsIncludes text "available" then
        .result ⟨"available", jsStr "That plate is available."⟩
      else if jsIncludes text "not available" || jsIncludes text "already in use" ||
          jsIncludes text "unavailable" then
        .result ⟨"taken", jsStr "That plate appears to be taken."⟩
      else
        .result ⟨"unavailable", jsStr "Could not interpret DMV response. Please try again."⟩
    | p =>
      let code := extractCode p
      let message := extractMessage p
      let normalizedMessage := normalizeMessage message
      match messageMapLookup normalizedMessage with
      | some out => out
      | none =>
        if isTrue (member p "success") && code == "AVAILABLE" then
          .result ⟨"available", jsStr "That plate is available."⟩
        else if isTrue (member p "available") || code == "AVAILABLE" || code == "SUCCESS" then
          .result ⟨"available", jsOr message (jsStr "That plate is available.")⟩
        else if code == "VALIDATION" || code == "INVALID" || isFalse (member p "isValid") then
          .result ⟨"invalid", jsOr message (jsStr "That plate is invalid.")⟩
        else if code == "TAKEN" || code == "UNAVAILABLE" || code == "NOT_AVAILABLE" ||
            isFalse (member p "available") then
          .result ⟨"taken", jsOr message (jsStr "That plate appears to be taken.")⟩
        else
          match message with
          | jsStr s =>
            if 0 < s.length && !(jsStartsWith (normalizeMessage (jsStr s)) "message.") then
              .result ⟨"taken", jsStr s⟩
            else
              .result ⟨"unavailable", jsStr "Could not interpret DMV response. Please try again."⟩
          | _ =>
            .result ⟨"unavailable", jsStr "Could not interpret DMV response. Please try again."⟩

/-- Membership in the character class of the validation regex
[A-Z0-9/ ] on line 98 of server.js, by code point: A..Z is 65..90,
0..9 is 48..57, the slash is 47 and the space is 32 (regex character
ranges compare code points). -/
def isPlateChar (c : Char) : Bool :=
  (65 ≤ c.toNat && c.toNat ≤ 90) || (48 ≤ c.toNat && c.toNat ≤ 57) ||
  c.toNat = 47 || c.toNat = 32

/-- The case-insensitive plate alphabet named by the spec and the claims:
the regex class together with the lower-case letters a..z (97..122). -/
def isPlateCharCI (c : Char) : Bool :=
  isPlateChar c || (97 ≤ c.toNat && c.toNat ≤ 122)

/-- The test of the anchored regex on line 98: at least one character and
every character in the class. -/
def plateRegexTest (n : String) : Bool :=
  n.length != 0 && n.toList.all isPlateChar

/-- normalizePlate (server.js lines 83-103). The thrown ValidationError is
modelled as Except.error carrying the error message. -/
def normalizePlate (input : JSValue) : Except String String :=
  match input with
  | jsStr s =>
    let normalized := jsToUpper (jsTrim s)
    if normalized.length = 0 then
      .error "Plate cannot be empty."
    else if normalized.length < 2 ∨ normalized.length > 7 then
      .error "Plates must be between 2 and 7 characters."
    else if !plateRegexTest normalized then
      .error "Only letters A-Z, digits 0-9, spaces, and \"/\" are allowed."
    else
      .ok normalized
  | _ => .error "Plate must be text."

/-- A rate bucket {count, windowStart} (server.js line 52). -/
structure Bucket where
  count : Nat
  windowStart : Nat

/-- isRateLimited (server.js lines 47-62): takes the requestBuckets map
and the current time explicitly (the source reads the module-level map and
Date.now()) and returns the decision together with the updated map. -/
def isRateLimited (buckets : List (String × Bucket)) (ip : String) (now : Nat) :
    Bool × List (String × Bucket) :=
  match mapLookup buckets ip with
  | none => (false, mapSet buckets ip ⟨1, now⟩)
  | some bucket =>
    if now - bucket.windowStart ≥ RATE_LIMIT_WINDOW_MS then
      (false, mapSet buckets ip ⟨1, now⟩)
    else if bucket.count ≥ RATE_LIMIT_MAX_REQUESTS then
      (true, buckets)
    else
      (false, mapSet buckets ip ⟨bucket.count + 1, bucket.windowStart⟩)

/-- The admission interface named in the spec (section 4.2): admitRequest returns
true exactly when isRateLimited returns false, with the same state
update. -/
def admitRequest (buckets : List (String × Bucket)) (ip : String) (now : Nat) :
    Bool × List (String × Bucket) :=
  let r := isRateLimited buckets ip now
  (!r.1, r.2)

/-- Iterate admitRequest n times for the same client at the same instant,
collecting the n admission decisions and the final map. -/
def iterAdmit (buckets : List (String × Bucket)) (ip : String) (now : Nat) :
    Nat → List Bool × List (String × Bucket)
  | 0 => ([], buckets)
  | n + 1 =>
    let step := admitRequest buckets ip now
    let rest := iterAdmit step.2 ip now n
    (step.1 :: rest.1, rest.2)

/-- A cache entry {result, expiresAt} (server.js line 77). -/
structure CacheEntry where
  result : InterpretOut
  expiresAt : Nat

/-- getCachedResult (server.js lines 64-74): returns the hit (if any)
together with the updated cache, since an expired entry is deleted. -/
def getCachedResult (cache : List (String × CacheEntry)) (plate : String) (now : Nat) :
    Option InterpretOut × List (String × CacheEntry) :=
  match mapLookup cache plate with
  | none => (none, cache)
  | some entry =>
    if now > entry.expiresAt then
      (none, mapDelete cache plate)
    else
      (some entry.result, cache)

/-- setCachedResult (server.js lines 76-81). -/
def setCachedResult (cache : List (String × CacheEntry)) (plate : String)
    (result : InterpretOut) (now : Nat) : List (String × CacheEntry) :=
  mapSet cache plate ⟨result, now + CACHE_TTL_MS⟩

/-- The mutable module-level state of the server: plateCache and
requestBuckets (server.js lines 13-14). -/
structure ServerState where
  plateCache : List (String × CacheEntry)
  requestBuckets : List (String × Bucket)

/-- Outcome of the outbound DMV exchange (session fetch plus check call,
server.js lines 237-265): either some step threw (timeout, network error,
body-read failure), carrying the error message, or a payload and HTTP
status were obtained. -/
inductive UpstreamOutcome where
  | failure (msg : String)
  | response (payload : JSValue) (httpStatus : Int)

/-- An HTTP response sent by the route handler. ok carries the spread of
the interpreted value plus the cached flag: for a proper result the body is
{status, message, cached}; for an inherited prototype member the spread
contributes no own enumerable properties, so the body is just {cached},
modelled as ok none. err carries the status code, the error value and the
optional details field. -/
inductive HttpResponse where
  | ok (r : Option DmvResult) (cached : Bool)
  | err (code : Nat) (error : JSValue) (details : Option String)

/-- Build the 200 response {...interpreted, cached} (server.js lines 233
and 283). -/
def mkOkResponse (interpreted : InterpretOut) (cached : Bool) : HttpResponse :=
  match interpreted with
  | .result r => .ok (some r) cached
  | .protoMember _ => .ok none cached

/-- The POST /api/check-plate handler (server.js lines 217-292) as a pure
transition: the club of inputs a single request depends on (client ip,
parsed body, the outcome of the upstream exchange, the clock) is passed
explicitly, and the response is returned with the updated server state.
The try/catch is modelled by the Except branches: a ValidationError from
normalizePlate yields 400 with its message, an upstream failure yields 502
with details. -/
def checkPlateHandler (st : ServerState) (clientIp : String) (body : JSValue)
    (upstream : UpstreamOutcome) (now : Nat) : HttpResponse × ServerState :=
  let rl := isRateLimited st.requestBuckets clientIp now
  let st1 : ServerState := ⟨st.plateCache, rl.2⟩
  if rl.1 then
    (.err 429 (jsStr "Too many requests. Please wait a minute and try again.") none, st1)
  else
    let plate := member (jsOr body (jsObj [])) "plate"
    match plate with
    | jsUndef => (.err 400 (jsStr "Missing plate value.") none, st1)
    | jsNull => (.err 400 (jsStr "Missing plate value.") none, st1)
    | p =>
      match normalizePlate p with
      | .error msg => (.err 400 (jsStr msg) none, st1)
      | .ok normalized =>
        let g := getCachedResult st1.plateCache normalized now
        let st2 : ServerState := ⟨g.2, st1.requestBuckets⟩
        match g.1 with
        | some cachedResult => (mkOkResponse cachedResult true, st2)
        | none =>
          match upstream with
          | .failure msg =>
            (.err 502 (jsStr "Unable to reach DMV endpoint.") (some msg), st2)
          | .response payload httpStatus =>
            let interpreted := interpretDmvResponse payload httpStatus
            if statusOf interpreted = some "unavailable" then
              (.err 502 (messageOf interpreted) none, st2)
            else
              let st3 : ServerState :=
                ⟨setCachedResult st2.plateCache normalized interpreted now, st2.requestBuckets⟩
              (mkOkResponse interpreted false, st3)

/-! ### Helper lemmas about characters and association-list maps -/

theorem toNat_charOfNat_valid {n : Nat} (h : Nat.isValidChar n) :
    (Char.ofNat n).toNat = n := by
  rw [Char.ofNat, dif_pos h]
  rfl

theorem charToUpper_toNat (c : Char) :
    (Char.toUpper c).toNat =
      if 97 ≤ c.toNat ∧ c.toNat ≤ 122 then c.toNat - 32 else c.toNat := by
  unfold Char.toUpper
  by_cases h : 97 ≤ c.toNat ∧ c.toNat ≤ 122
  · rw [if_pos ⟨h.1, h.2⟩, if_pos h]
    exact toNat_charOfNat_valid (Or.inl (by omega))
  · rw [if_neg, if_neg h]
    exact fun hc => h ⟨hc.1, hc.2⟩

theorem charToUpper_eq_self (c : Char) (h : ¬(97 ≤ c.toNat ∧ c.toNat ≤ 122)) :
    Char.toUpper c = c := by
  unfold Char.toUpper
  rw [if_neg]
  exact fun hc => h ⟨hc.1, hc.2⟩

theorem isPlateChar_charToUpper (c : Char) (h : isPlateCharCI c = true) :
    isPlateChar (Char.toUpper c) = true := by
  have ht := charToUpper_toNat c
  simp only [isPlateCharCI, isPlateChar, Bool.or_eq_true, Bool.and_eq_true,
    decide_eq_true_eq] at h ⊢
  split at ht <;> omega

theorem charToUpper_eq_self_of_plateChar (c : Char) (h : isPlateChar c = true) :
    Char.toUpper c = c := by
  apply charToUpper_eq_self
  simp only [isPlateChar, Bool.or_eq_true, Bool.and_eq_true, decide_eq_true_eq] at h
  omega

theorem jsIsWhite_charToUpper (c : Char) :
    jsIsWhite (Char.toUpper c) = jsIsWhite c := by
  have ht := charToUpper_toNat c
  rw [Bool.eq_iff_iff]
  simp only [jsIsWhite, Bool.or_eq_true, Bool.and_eq_true, decide_eq_true_eq]
  split at ht
  · rw [ht]; omega
  · rw [ht]

theorem mapLookup_mapSet_self {β : Type} (m : List (String × β)) (k : String) (v : β) :
    mapLookup (mapSet m k v) k = some v := by
  induction m with
  | nil => simp [mapSet, mapLookup]
  | cons kv rest ih =>
    obtain ⟨k1, v1⟩ := kv
    by_cases h : k1 = k
    · subst h
      simp [mapSet, mapLookup]
    · simp [mapSet, mapLookup, h, ih]

theorem mapLookup_eq_none_of_not_mem {β : Type} (m : List (String × β)) (k : String)
    (h : k ∉ m.map Prod.fst) : mapLookup m k = none := by
  induction m with
  | nil => rfl
  | cons kv rest ih =>
    obtain ⟨k1, v1⟩ := kv
    simp only [List.map_cons, List.mem_cons] at h
    push_neg at h
    simp only [mapLookup]
    rw [if_neg fun hh => h.1 hh.symm]
    exact ih h.2

theorem mem_keys_mapSet {β : Type} (m : List (String × β)) (k : String) (v : β) (a : String)
    (ha : a ∈ (mapSet m k v).map Prod.fst) : a ∈ m.map Prod.fst ∨ a = k := by
  induction m with
  | nil =>
    simp only [mapSet, List.map_cons, List.map_nil, List.mem_cons,
      List.not_mem_nil, or_false] at ha
    exact Or.inr ha
  | cons kv rest ih =>
    obtain ⟨k1, v1⟩ := kv
    by_cases h : k1 = k
    · subst h
      rw [show mapSet ((k1, v1) :: rest) k1 v = (k1, v) :: rest from by
        simp [mapSet]] at ha
      simp only [List.map_cons, List.mem_cons] at ha ⊢
      tauto
    · simp only [mapSet, if_neg h, List.map_cons, List.mem_cons] at ha
      simp only [List.map_cons, List.mem_cons]
      rcases ha with ha | ha
      · tauto
      · rcases ih ha with h1 | h1 <;> tauto

theorem keysNodup_mapSet {β : Type} (m : List (String × β)) (k : String) (v : β)
    (h : (m.map Prod.fst).Nodup) : ((mapSet m k v).map Prod.fst).Nodup := by
  induction m with
  | nil => simp [mapSet]
  | cons kv rest ih =>
    obtain ⟨k1, v1⟩ := kv
    simp only [List.map_cons, List.nodup_cons] at h
    by_cases hk : k1 = k
    · subst hk
      simpa [mapSet] using h
    · simp only [mapSet, if_neg hk, List.map_cons, List.nodup_cons]
      refine ⟨fun hmem => ?_, ih h.2⟩
      rcases mem_keys_mapSet rest k v k1 hmem with h1 | h1
      · exact h.1 h1
      · exact hk h1

theorem mapLookup_mapDelete_self {β : Type} (m : List (String × β)) (k : String)
    (h : (m.map Prod.fst).Nodup) : mapLookup (mapDelete m k) k = none := by
  induction m with
  | nil => rfl
  | cons kv rest ih =>
    obtain ⟨k1, v1⟩ := kv
    simp only [List.map_cons, List.nodup_cons] at h
    by_cases hk : k1 = k
    · subst hk
      simp only [mapDelete, if_pos rfl]
      exact mapLookup_eq_none_of_not_mem rest k1 h.1
    · simp [mapDelete, hk, mapLookup, ih h.2]

theorem admit_step_inWindow (bs : List (String × Bucket)) (id : String) (t c : Nat)
    (h : mapLookup bs id = some ⟨c, t⟩) (hc : c < RATE_LIMIT_MAX_REQUESTS) :
    admitRequest bs id t = (true, mapSet bs id ⟨c + 1, t⟩) := by
  simp only [admitRequest, isRateLimited, h, Nat.sub_self]
  rw [if_neg (by simp [RATE_LIMIT_WINDOW_MS]),
    if_neg (by simp only [RATE_LIMIT_MAX_REQUESTS] at hc ⊢; omega)]
  rfl

theorem admit_reject (bs : List (String × Bucket)) (id : String) (now : Nat) (b : Bucket)
    (h : mapLookup bs id = some b) (hwin : now - b.windowStart < RATE_LIMIT_WINDOW_MS)
    (hc : RATE_LIMIT_MAX_REQUESTS ≤ b.count) :
    admitRequest bs id now = (false, bs) := by
  simp only [admitRequest, isRateLimited, h]
  rw [if_neg (by omega), if_pos hc]
  rfl

theorem admit_reset (bs : List (String × Bucket)) (id : String) (now : Nat) (b : Bucket)
    (h : mapLookup bs id = some b) (helapsed : b.windowStart + RATE_LIMIT_WINDOW_MS ≤ now) :
    admitRequest bs id now = (true, mapSet bs id ⟨1, now⟩) := by
  simp only [admitRequest, isRateLimited, h]
  rw [if_pos (by omega)]
  rfl

theorem iterAdmit_all_true (id : String) (t : Nat) :
    ∀ (k c : Nat) (bs : List (String × Bucket)),
      mapLookup bs id = some ⟨c, t⟩ → c + k ≤ RATE_LIMIT_MAX_REQUESTS →
      (iterAdmit bs id t k).1 = List.replicate k true ∧
      mapLookup (iterAdmit bs id t k).2 id = some ⟨c + k, t⟩
  | 0, c, bs, h, _ => ⟨rfl, by simpa [iterAdmit] using h⟩
  | k + 1, c, bs, h, hk => by
    have hstep := admit_step_inWindow bs id t c h (by omega)
    have hrec := iterAdmit_all_true id t k (c + 1) (mapSet bs id ⟨c + 1, t⟩)
      (mapLookup_mapSet_self bs id ⟨c + 1, t⟩) (by omega)
    have harith : c + 1 + k = c + (k + 1) := by omega
    rw [harith] at hrec
    simp only [iterAdmit, hstep]
    exact ⟨by rw [hrec.1, List.replicate_succ], hrec.2⟩

theorem admit_fresh (bs : List (String × Bucket)) (id : String) (now : Nat)
    (h : mapLookup bs id = none) :
    admitRequest bs id now = (true, mapSet bs id ⟨1, now⟩) := by
  simp only [admitRequest, isRateLimited, h]
  rfl

theorem iterAdmit_fresh (id : String) (t : Nat) (bs : List (String × Bucket))
    (h0 : mapLookup bs id = none) (k : Nat) (hk : 1 + k ≤ RATE_LIMIT_MAX_REQUESTS) :
    (iterAdmit bs id t (k + 1)).1 = List.replicate (k + 1) true ∧
    mapLookup (iterAdmit bs id t (k + 1)).2 id = some ⟨1 + k, t⟩ := by
  have hfirst := admit_fresh bs id t h0
  have hrec := iterAdmit_all_true id t k 1 (mapSet bs id ⟨1, t⟩)
    (mapLookup_mapSet_self bs id ⟨1, t⟩) hk
  simp only [iterAdmit, hfirst]
  exact ⟨by rw [List.replicate_succ, hrec.1], hrec.2⟩

/-- C6: for every client identifier and time t, starting from a state with
no bucket for that client, 20 calls to admitRequest at time t all return true; the
21st call at time t returns false and leaves the bucket map unchanged (the
counter is not incremented); a call at t + 60001 ms returns true again and
the bucket is reset with count 1 and window start t + 60001. -/
theorem C6_rate_limit_window (id : String) (t : Nat) (buckets : List (String × Bucket))
    (h0 : mapLookup buckets id = none) :
    (iterAdmit buckets id t 20).1 = List.replicate 20 true ∧
    (admitRequest (iterAdmit buckets id t 20).2 id t).1 = false ∧
    (admitRequest (iterAdmit buckets id t 20).2 id t).2 = (iterAdmit buckets id t 20).2 ∧
    (admitRequest (iterAdmit buckets id t 20).2 id (t + 60001)).1 = true ∧
    mapLookup (admitRequest (iterAdmit buckets id t 20).2 id (t + 60001)).2 id
      = some ⟨1, t + 60001⟩ := by
  rw [show (20 : Nat) = 19 + 1 from rfl]
  have h := iterAdmit_fresh id t buckets h0 19 (by decide)
  have hrej := admit_reject (iterAdmit buckets id t (19 + 1)).2 id t ⟨1 + 19, t⟩ h.2
    (show t - t < _ by simp [RATE_LIMIT_WINDOW_MS])
    (show RATE_LIMIT_MAX_REQUESTS ≤ 1 + 19 by decide)
  have hres := admit_reset (iterAdmit buckets id t (19 + 1)).2 id (t + 60001) ⟨1 + 19, t⟩
    h.2 (show t + RATE_LIMIT_WINDOW_MS ≤ t + 60001 by simp only [RATE_LIMIT_WINDOW_MS]; omega)
  refine ⟨h.1, ?_, ?_, ?_, ?_⟩
  · rw [hrej]
  · rw [hrej]
  · rw [hres]
  · simp only [hres]
    exact mapLookup_mapSet_self _ _ _

/-- C7: cache round trip with the 5-minute TTL. For every plate key, result,
store time t0 and cache state (with the unique-key invariant of a JavaScript
Map), setCachedResult followed by getCachedResult at t0 + 299999 ms returns
the stored result, while getCachedResult at t0 + 300001 ms returns absent
and lazily evicts the entry from the cache. -/
theorem C7_cache_roundtrip (k : String) (r : InterpretOut) (t0 : Nat)
    (cache : List (String × CacheEntry)) (hnd : (cache.map Prod.fst).Nodup) :
    (getCachedResult (setCachedResult cache k r t0) k (t0 + 299999)).1 = some r ∧
    (getCachedResult (setCachedResult cache k r t0) k (t0 + 300001)).1 = none ∧
    mapLookup (getCachedResult (setCachedResult cache k r t0) k (t0 + 300001)).2 k
      = none := by
  have hset : mapLookup (setCachedResult cache k r t0) k = some ⟨r, t0 + CACHE_TTL_MS⟩ :=
    mapLookup_mapSet_self cache k ⟨r, t0 + CACHE_TTL_MS⟩
  refine ⟨?_, ?_, ?_⟩
  · simp only [getCachedResult, hset]
    rw [if_neg (show ¬t0 + 299999 > (CacheEntry.mk r (t0 + CACHE_TTL_MS)).expiresAt by
      show ¬t0 + 299999 > t0 + CACHE_TTL_MS
      simp only [CACHE_TTL_MS]
      omega)]
  · simp only [getCachedResult, hset]
    rw [if_pos (show t0 + 300001 > (CacheEntry.mk r (t0 + CACHE_TTL_MS)).expiresAt by
      show t0 + 300001 > t0 + CACHE_TTL_MS
      simp only [CACHE_TTL_MS]
      omega)]
  · simp only [getCachedResult, hset]
    rw [if_pos (show t0 + 300001 > (CacheEntry.mk r (t0 + CACHE_TTL_MS)).expiresAt by
      show t0 + 300001 > t0 + CACHE_TTL_MS
      simp only [CACHE_TTL_MS]
      omega)]
    exact mapLookup_mapDelete_self (setCachedResult cache k r t0) k
      (keysNodup_mapSet cache k ⟨r, t0 + CACHE_TTL_MS⟩ hnd)

theorem isRateLimited_true (bs : List (String × Bucket)) (ip : String) (now : Nat)
    (b : Bucket) (hb : mapLookup bs ip = some b)
    (hwin : now - b.windowStart < RATE_LIMIT_WINDOW_MS)
    (hcount : RATE_LIMIT_MAX_REQUESTS ≤ b.count) :
    isRateLimited bs ip now = (true, bs) := by
  simp only [isRateLimited, hb]
  rw [if_neg (by omega), if_pos hcount]

/-- C5 amended: the handler performs the rate-limit check before input
validation, so a request from a client whose bucket has an unelapsed window
and an exhausted counter is rejected with the throttling error 429
regardless of the request body, including when the body carries an invalid
plate. -/
theorem C5_amended_rate_check_first (st : ServerState) (ip : String) (body : JSValue)
    (up : UpstreamOutcome) (now : Nat) (b : Bucket)
    (hb : mapLookup st.requestBuckets ip = some b)
    (hwin : now - b.windowStart < RATE_LIMIT_WINDOW_MS)
    (hcount : RATE_LIMIT_MAX_REQUESTS ≤ b.count) :
    (checkPlateHandler st ip body up now).1 =
      .err 429 (jsStr "Too many requests. Please wait a minute and try again.") none := by
  have hrl := isRateLimited_true st.requestBuckets ip now b hb hwin hcount
  simp only [checkPlateHandler, hrl, if_true]

/-- C3 amended: for every structured payload on which none of the earlier
interpreter cases fires (the message-map lookup misses, the success flag
with AVAILABLE code, the available flag and AVAILABLE or SUCCESS codes, the
invalid codes and isValid flag, and the taken codes and available flag all
fail), if the extracted message is a non-empty string whose trimmed
lower-cased form does not start with the prefix "message.", the interpreter
returns status taken with that message verbatim. The source tests the
"message." prefix, not membership in the five vocabulary keys that the
claim names. -/
theorem C3_amended_message_fallthrough (fields : List (String × JSValue)) (httpStatus : Int)
    (m : String)
    (hstatus : httpStatus < 500)
    (hmsg : extractMessage (jsObj fields) = jsStr m)
    (hmap : messageMapLookup (jsToLower (jsTrim m)) = none)
    (h1 : (isTrue (member (jsObj fields) "success") &&
      (extractCode (jsObj fields) == "AVAILABLE")) = false)
    (h2 : (isTrue (member (jsObj fields) "available") ||
      (extractCode (jsObj fields) == "AVAILABLE") ||
      (extractCode (jsObj fields) == "SUCCESS")) = false)
    (h3 : ((extractCode (jsObj fields) == "VALIDATION") ||
      (extractCode (jsObj fields) == "INVALID") ||
      isFalse (member (jsObj fields) "isValid")) = false)
    (h4 : ((extractCode (jsObj fields) == "TAKEN") ||
      (extractCode (jsObj fields) == "UNAVAILABLE") ||
      (extractCode (jsObj fields) == "NOT_AVAILABLE") ||
      isFalse (member (jsObj fields) "available")) = false)
    (hne : 0 < m.length)
    (hpre : jsStartsWith (jsToLower (jsTrim m)) "message." = false) :
    interpretDmvResponse (jsObj fields) httpStatus = .result ⟨"taken", jsStr m⟩ := by
  have hc : (decide (0 < m.length) && !jsStartsWith (jsToLower (jsTrim m)) "message.") = true := by
    rw [hpre, decide_eq_true hne]
    rfl
  simp only [interpretDmvResponse]
  rw [if_neg (by omega)]
  simp only [hmsg, normalizeMessage, hmap, h1, h2, h3, h4, Bool.false_eq_true, if_false, hc,
    if_true]

theorem length_eq_toList_length (s : String) : s.length = s.toList.length := rfl

theorem toList_mkString (l : List Char) : (String.mk l).toList = l := rfl

theorem mkString_toList (s : String) : String.mk s.toList = s := rfl

theorem jsToUpper_toList (s : String) : (jsToUpper s).toList = s.toList.map Char.toUpper := rfl

theorem jsToUpper_length (s : String) : (jsToUpper s).length = s.length := by
  rw [length_eq_toList_length, length_eq_toList_length, jsToUpper_toList, List.length_map]

theorem jsTrim_toList (s : String) :
    (jsTrim s).toList = dropTrailing jsIsWhite (s.toList.dropWhile jsIsWhite) := rfl

theorem dropTrailing_sublist (p : Char → Bool) (l : List Char) : List.Sublist (dropTrailing p l) l := by
  have h := (List.dropWhile_sublist p (l := l.reverse)).reverse
  rwa [List.reverse_reverse] at h

theorem jsTrim_sublist (s : String) : List.Sublist (jsTrim s).toList s.toList := by
  rw [jsTrim_toList]
  exact (dropTrailing_sublist jsIsWhite _).trans (List.dropWhile_sublist jsIsWhite)

theorem jsTrim_length_le (s : String) : (jsTrim s).length ≤ s.length := by
  rw [length_eq_toList_length, length_eq_toList_length]
  exact (jsTrim_sublist s).length_le

theorem head_dropWhile_false (p : Char → Bool) (l : List Char) (c : Char)
    (h : (l.dropWhile p).head? = some c) : p c = false := by
  induction l with
  | nil => simp [List.dropWhile] at h
  | cons a t ih =>
    by_cases ha : p a
    · rw [List.dropWhile_cons_of_pos ha] at h
      exact ih h
    · rw [List.dropWhile_cons_of_neg ha] at h
      simp only [List.head?_cons, Option.some.injEq] at h
      subst h
      exact Bool.not_eq_true _ ▸ (by simpa using ha)

theorem dropWhile_eq_self_of_head (p : Char → Bool) (l : List Char)
    (h : ∀ c, l.head? = some c → p c = false) : l.dropWhile p = l := by
  cases l with
  | nil => rfl
  | cons a t => exact List.dropWhile_cons_of_neg (by simp [h a rfl])

theorem dropTrailing_eq_self_of_last (p : Char → Bool) (l : List Char)
    (h : ∀ c, l.getLast? = some c → p c = false) : dropTrailing p l = l := by
  unfold dropTrailing
  rw [dropWhile_eq_self_of_head p l.reverse (fun c hc => h c (by rwa [List.head?_reverse] at hc)),
    List.reverse_reverse]

theorem head_of_front (l u : List Char) (c : Char) (hp : l <+: u) (h : l.head? = some c) :
    u.head? = some c := by
  obtain ⟨r, rfl⟩ := hp
  cases l with
  | nil => simp at h
  | cons a t => simpa using h

theorem dropTrailing_front (p : Char → Bool) (l : List Char) : dropTrailing p l <+: l := by
  have h : (l.reverse.dropWhile p).reverse <+: l.reverse.reverse :=
    List.reverse_prefix.mpr (List.dropWhile_suffix p)
  rwa [List.reverse_reverse] at h

theorem map_eq_self_of_fixed {α : Type} (l : List α) (f : α → α) (h : ∀ a ∈ l, f a = a) :
    l.map f = l := by
  induction l with
  | nil => rfl
  | cons a t ih => rw [List.map_cons, h a (by simp), ih (fun b hb => h b (by simp [hb]))]

theorem jsTrim_fix (t : String)
    (hhead : ∀ c, t.toList.head? = some c → jsIsWhite c = false)
    (hlast : ∀ c, t.toList.getLast? = some c → jsIsWhite c = false) :
    jsTrim t = t := by
  unfold jsTrim
  rw [dropWhile_eq_self_of_head _ _ hhead, dropTrailing_eq_self_of_last _ _ hlast]
  exact mkString_toList t

theorem jsTrim_jsToUpper_jsTrim (s : String) :
    jsTrim (jsToUpper (jsTrim s)) = jsToUpper (jsTrim s) := by
  apply jsTrim_fix
  · intro c hc
    rw [jsToUpper_toList, List.head?_map] at hc
    obtain ⟨d, hd, rfl⟩ := Option.map_eq_some'.mp hc
    rw [jsIsWhite_charToUpper]
    have hpre := dropTrailing_front jsIsWhite (s.toList.dropWhile jsIsWhite)
    rw [jsTrim_toList] at hd
    exact head_dropWhile_false jsIsWhite s.toList d (head_of_front _ _ d hpre hd)
  · intro c hc
    rw [jsToUpper_toList, List.getLast?_map] at hc
    obtain ⟨d, hd, rfl⟩ := Option.map_eq_some'.mp hc
    rw [jsIsWhite_charToUpper]
    rw [jsTrim_toList, ← List.head?_reverse] at hd
    unfold dropTrailing at hd
    rw [List.reverse_reverse] at hd
    exact head_dropWhile_false jsIsWhite _ d hd

theorem jsToUpper_fix (t : String) (h : ∀ c ∈ t.toList, isPlateChar c = true) :
    jsToUpper t = t := by
  unfold jsToUpper
  rw [map_eq_self_of_fixed _ _ (fun c hc => charToUpper_eq_self_of_plateChar c (h c hc))]
  exact mkString_toList t

theorem normalizePlate_ok_inv (s k : String) (h : normalizePlate (jsStr s) = .ok k) :
    k = jsToUpper (jsTrim s) ∧ 2 ≤ k.length ∧ k.length ≤ 7 ∧ plateRegexTest k = true := by
  simp only [normalizePlate] at h
  split_ifs at h with h1 h2 h3
  have hk : jsToUpper (jsTrim s) = k := by simpa using h
  subst hk
  push_neg at h2
  refine ⟨rfl, by omega, by omega, by simpa using h3⟩

/-- C8 amended: for every string of length 2 to 7 whose characters all lie
in the case-insensitive plate alphabet (A-Z, a-z, 0-9, slash, space) and
whose whitespace-trimmed form still has length at least 2, normalizePlate
succeeds and returns the uppercased trimmed form of the input. The extra
trimmed-length premise is forced by the counterexample: the source checks
the length bounds only after trimming. -/
theorem C8_amended_normalize (s : String)
    (hchars : ∀ c ∈ s.toList, isPlateCharCI c = true)
    (hmin : 2 ≤ s.length) (hmax : s.length ≤ 7)
    (htrim : 2 ≤ (jsTrim s).length) :
    normalizePlate (jsStr s) = .ok (jsToUpper (jsTrim s)) := by
  have hlen : (jsToUpper (jsTrim s)).length = (jsTrim s).length := jsToUpper_length _
  have hle : (jsTrim s).length ≤ s.length := jsTrim_length_le s
  have hreg : plateRegexTest (jsToUpper (jsTrim s)) = true := by
    simp only [plateRegexTest, Bool.and_eq_true, bne_iff_ne, ne_eq, List.all_eq_true]
    refine ⟨by omega, ?_⟩
    intro c hc
    rw [jsToUpper_toList] at hc
    obtain ⟨d, hd, rfl⟩ := List.mem_map.mp hc
    exact isPlateChar_charToUpper d (hchars d ((jsTrim_sublist s).subset hd))
  simp only [normalizePlate]
  rw [if_neg (by rw [hlen]; omega), if_neg (by rw [hlen]; omega), if_neg (by simp [hreg])]

/-- C10: normalizePlate is idempotent. For every input value on which
normalizePlate succeeds with output k, calling normalizePlate on k also
succeeds and returns k unchanged. -/
theorem C10_normalize_idempotent (x : JSValue) (k : String)
    (h : normalizePlate x = .ok k) : normalizePlate (jsStr k) = .ok k := by
  cases x with
  | jsStr s =>
    obtain ⟨hk, h2, h7, hreg⟩ := normalizePlate_ok_inv s k h
    have hall : ∀ c ∈ k.toList, isPlateChar c = true := by
      have hr := hreg
      simp only [plateRegexTest, Bool.and_eq_true, List.all_eq_true] at hr
      exact hr.2
    have htr : jsTrim k = k := by
      rw [hk]
      exact jsTrim_jsToUpper_jsTrim s
    have hup : jsToUpper k = k := jsToUpper_fix k hall
    simp only [normalizePlate, htr, hup]
    rw [if_neg (by omega), if_neg (by omega), if_neg (by simp [hreg])]
  | jsUndef => exact absurd h (by simp [normalizePlate])
  | jsNull => exact absurd h (by simp [normalizePlate])
  | jsBool b => exact absurd h (by simp [normalizePlate])
  | jsNum n => exact absurd h (by simp [normalizePlate])
  | jsObj fields => exact absurd h (by simp [normalizePlate])

/-- C1: the claim states that the textual payload "Sorry, not available"
interprets to status taken. The code disagrees: the available-branch on
line 138 tests substring containment of "available" first, and
"not available" contains "available", so the interpreter returns status
available. This theorem evaluates the interpreter at the claimed input and
exhibits the divergence (the taken-branch tests for "not available" and
"unavailable" on line 141 are unreachable). -/
theorem C1_sorry_not_available_evaluates_available :
    interpretDmvResponse (jsStr "Sorry, not available") 200 =
      .result ⟨"available", jsStr "That plate is available."⟩ := rfl

/-- C2: the claim states that the interpreter always returns a result whose
status is one of available, taken, invalid, unavailable. The code disagrees
on the payload with message "constructor": the lookup
messageMap[normalizedMessage] on line 158 walks the prototype chain of the
object literal, finds Object.prototype.constructor, which is truthy, and
returns it; the returned value has no status field at all. -/
theorem C2_interpret_inherited_prototype_result :
    interpretDmvResponse (jsObj [("message", jsStr "constructor")]) 200 =
      .protoMember "constructor" ∧
    statusOf (.protoMember "constructor") = none := ⟨rfl, rfl⟩

/-- C3 counterexample: the payload with message "MESSAGE.FOO" satisfies the
claim premises: no earlier case matches and the normalized message
"message.foo" is not one of the five message vocabulary keys, so the claim
demands status taken with message "MESSAGE.FOO" verbatim. The code instead
returns unavailable, because line 187 excludes every message whose
lower-cased form starts with the prefix "message.", not only the five
vocabulary keys. -/
theorem C3_counterexample_message_prefix_excluded :
    interpretDmvResponse (jsObj [("message", jsStr "MESSAGE.FOO")]) 200 =
      .result ⟨"unavailable", jsStr "Could not interpret DMV response. Please try again."⟩ ∧
    jsToLower (jsTrim "MESSAGE.FOO") ≠ "message.available" ∧
    jsToLower (jsTrim "MESSAGE.FOO") ≠ "message.notavailable" ∧
    jsToLower (jsTrim "MESSAGE.FOO") ≠ "message.taken" ∧
    jsToLower (jsTrim "MESSAGE.FOO") ≠ "message.invalid" ∧
    jsToLower (jsTrim "MESSAGE.FOO") ≠ "message.global" := by
  refine ⟨rfl, ?_, ?_, ?_, ?_, ?_⟩ <;> decide

/-- C4: the claim states that every cache entry after a request completes
has status available, taken or invalid. The code disagrees: a request for
plate AB whose upstream 200 response carries message "constructor" makes
the interpreter return the inherited Object.prototype.constructor value
(see C2); its status is not the string unavailable, so line 282 caches it,
leaving a cache entry whose result has no status at all. -/
theorem C4_cache_contains_non_vocabulary_result :
    (checkPlateHandler ⟨[], []⟩ "198.51.100.7" (jsObj [("plate", jsStr "AB")])
        (.response (jsObj [("message", jsStr "constructor")]) 200) 1000).2.plateCache =
      [("AB", ⟨.protoMember "constructor", 1000 + CACHE_TTL_MS⟩)] ∧
    statusOf (.protoMember "constructor") ≠ some "available" ∧
    statusOf (.protoMember "constructor") ≠ some "taken" ∧
    statusOf (.protoMember "constructor") ≠ some "invalid" := by
  refine ⟨rfl, ?_, ?_, ?_⟩ <;> simp [statusOf]

/-- C5 counterexample: the claim demands that an invalid plate from a
rate-limited client is rejected with the validation error 400. In the code
the rate-limit check on line 220 runs before any body handling, so with an
exhausted bucket inside the window the handler answers 429 even though the
plate "!" fails validation. -/
theorem C5_counterexample_rate_limited_invalid_plate :
    (checkPlateHandler ⟨[], [("203.0.113.9", ⟨20, 5000⟩)]⟩ "203.0.113.9"
        (jsObj [("plate", jsStr "!")]) (.failure "unused") 5500).1 =
      .err 429 (jsStr "Too many requests. Please wait a minute and try again.") none ∧
    normalizePlate (jsStr "!") = .error "Plates must be between 2 and 7 characters." :=
  ⟨rfl, rfl⟩

/-- C8 counterexample: the two-character input "a " lies in the claimed
alphabet and length range, yet normalizePlate fails: the source trims
before checking the length bounds, and the trimmed uppercased form "A" has
length 1. -/
theorem C8_counterexample_trailing_space :
    normalizePlate (jsStr "a ") = .error "Plates must be between 2 and 7 characters." := rfl

/-- C9: the claim states that a 200 response always carries a status among
available, taken, invalid. The code disagrees: for an upstream 200 response
with message "constructor" the interpreter returns the inherited prototype
member (see C2), whose status is undefined and in particular not the string
unavailable, so the handler takes the success path; spreading that value
contributes no own enumerable properties, and the 200 body is just the
cached flag with no status field, modelled as ok none. The unavailable-map
rule itself (interpreter status unavailable answered with 502 and the
interpreter message) holds on the code and is visible in checkPlateHandler. -/
theorem C9_200_response_missing_status :
    (checkPlateHandler ⟨[], []⟩ "198.51.100.8" (jsObj [("plate", jsStr "CD")])
        (.response (jsObj [("message", jsStr "constructor")]) 200) 2000).1 =
      .ok none false := rfl

/-- Witness for C3 amended: the payload with message "No good" satisfies
every premise, and the interpreter returns taken with that message. -/
theorem C3_amended_message_fallthrough_witness :
    interpretDmvResponse (jsObj [("message", jsStr "No good")]) 200 =
      .result ⟨"taken", jsStr "No good"⟩ :=
  C3_amended_message_fallthrough [("message", jsStr "No good")] 200 "No good"
    (by decide) rfl rfl rfl rfl rfl rfl (by decide) rfl

/-- Witness for C5 amended: a client with an exhausted in-window bucket is
answered 429 at a concrete state even though its plate is valid. -/
theorem C5_amended_rate_check_first_witness :
    (checkPlateHandler ⟨[], [("192.0.2.4", ⟨20, 100⟩)]⟩ "192.0.2.4"
        (jsObj [("plate", jsStr "GOOD1")]) (.failure "unused") 150).1 =
      .err 429 (jsStr "Too many requests. Please wait a minute and try again.") none :=
  C5_amended_rate_check_first ⟨[], [("192.0.2.4", ⟨20, 100⟩)]⟩ "192.0.2.4"
    (jsObj [("plate", jsStr "GOOD1")]) (.failure "unused") 150 ⟨20, 100⟩
    rfl (by decide) (by decide)

/-- Witness for C6 at a concrete client, time 0 and the empty bucket map. -/
theorem C6_rate_limit_window_witness :
    (iterAdmit [] "1.1.1.1" 0 20).1 = List.replicate 20 true ∧
    (admitRequest (iterAdmit [] "1.1.1.1" 0 20).2 "1.1.1.1" 0).1 = false ∧
    (admitRequest (iterAdmit [] "1.1.1.1" 0 20).2 "1.1.1.1" 0).2 = (iterAdmit [] "1.1.1.1" 0 20).2 ∧
    (admitRequest (iterAdmit [] "1.1.1.1" 0 20).2 "1.1.1.1" (0 + 60001)).1 = true ∧
    mapLookup (admitRequest (iterAdmit [] "1.1.1.1" 0 20).2 "1.1.1.1" (0 + 60001)).2 "1.1.1.1"
      = some ⟨1, 0 + 60001⟩ :=
  C6_rate_limit_window "1.1.1.1" 0 [] rfl

/-- Witness for C7 at a concrete key, result and the empty cache. -/
theorem C7_cache_roundtrip_witness :
    (getCachedResult (setCachedResult [] "AB1" (.result ⟨"taken", jsStr "t"⟩) 0) "AB1"
      (0 + 299999)).1 = some (.result ⟨"taken", jsStr "t"⟩) ∧
    (getCachedResult (setCachedResult [] "AB1" (.result ⟨"taken", jsStr "t"⟩) 0) "AB1"
      (0 + 300001)).1 = none ∧
    mapLookup (getCachedResult (setCachedResult [] "AB1" (.result ⟨"taken", jsStr "t"⟩) 0)
      "AB1" (0 + 300001)).2 "AB1" = none :=
  C7_cache_roundtrip "AB1" (.result ⟨"taken", jsStr "t"⟩) 0 [] (by simp)

/-- Witness for C8 amended at the concrete input " aB1". -/
theorem C8_amended_normalize_witness :
    normalizePlate (jsStr " aB1") = .ok (jsToUpper (jsTrim " aB1")) :=
  C8_amended_normalize " aB1" (by decide) (by decide) (by decide) (by decide)

/-- Witness for C10: normalizePlate maps " ab1 " to AB1, and normalizePlate
at AB1 returns AB1 unchanged. -/
theorem C10_normalize_idempotent_witness :
    normalizePlate (jsStr " ab1 ") = .ok "AB1" ∧
    normalizePlate (jsStr "AB1") = .ok "AB1" :=
  ⟨rfl, C10_normalize_idempotent (jsStr " ab1 ") "AB1" rfl⟩

end PlateChecker
